import Mathlib

/-!
Verification development for the cooperation_BI mirror-and-analytics system.

Shallow embedding notes:
- The sqlite `offers` table (`id INTEGER PRIMARY KEY`, see `parse_all_to_db.py`)
  is modelled as a `List Row`; `INSERT OR REPLACE` keyed by the primary key `id`
  is modelled by removing any row with the same id and appending the new row,
  matching sqlite's delete-then-insert semantics for `INSERT OR REPLACE`.
- Python sets of ids are modelled as deduplicated lists (`List.dedup`); only
  membership and cardinality of these sets are ever observed.
- SQL `AVG` and Python float division are modelled with exact rationals (`ℚ`);
  unit prices and quantities are sqlite INTEGERs, modelled as `Int`.
  The display-level `round(x, 2)` calls of `analyze_data.py` are not modelled:
  every property checked here concerns exact values whose content is
  independent of 2-decimal display rounding (prices are integers, so medians
  have denominator at most 2).
- `status_date` is a TEXT timestamp whose SQL MIN/MAX is lexicographic and
  hence chronological; it is modelled as a `Nat` timestamp.
- Network interactions of `fetch_all_offers_for_category` /
  `update_database.py` are modelled by a `FetchResponse` value describing the
  remote side's observable behaviour for one category: a raised exception
  (timeout, connection error), a malformed / non-200 envelope, a confirmed
  total of zero, or delivered offer data.
- Fields of the `offers` schema that no modelled computation reads
  (photo urls, company names, offer numbers, certificate flags, ...) are
  omitted from `Row`; all fields read by the functions under verification
  are present.
-/

namespace Coop

/-- One row of the `offers` table (the fields read by the code under
verification): primary key `id`, owning `category_id`, `product_name_ru`,
`measure_name`, `unit_price`, `product_quantity`, `status_date`.
A NULL / missing `product_name_ru` is modelled as the empty string. -/
structure Row where
  id : Nat
  categoryId : Nat
  productName : String
  measureName : String
  unitPrice : Int
  productQuantity : Int
  statusDate : Nat
  deriving DecidableEq

/-- One offer payload as delivered by the remote API (`GetAllOffer` data
element); `insert_or_update_offers` writes it into the table with the
category id taken from its own parameter, not from the payload. -/
structure RemoteOffer where
  id : Nat
  productName : String
  measureName : String
  unitPrice : Int
  productQuantity : Int
  statusDate : Nat
  deriving DecidableEq

/-- The row written for a remote offer under a given category id
(the column tuple of the `INSERT OR REPLACE` in `insert_or_update_offers`). -/
def RemoteOffer.toRow (catId : Nat) (o : RemoteOffer) : Row :=
  { id := o.id
    categoryId := catId
    productName := o.productName
    measureName := o.measureName
    unitPrice := o.unitPrice
    productQuantity := o.productQuantity
    statusDate := o.statusDate }

/-- `get_existing_offer_ids` (update_database.py:30): the set of offer ids
currently stored for a category, as a deduplicated list. -/
def get_existing_offer_ids (store : List Row) (catId : Nat) : List Nat :=
  ((store.filter (fun r => r.categoryId = catId)).map (fun r => r.id)).dedup

/-- `INSERT OR REPLACE INTO offers` keyed by the primary key `id`:
sqlite deletes any conflicting row and inserts the new one. -/
def upsertRow (store : List Row) (r : Row) : List Row :=
  store.filter (fun s => s.id ≠ r.id) ++ [r]

/-- Statistics record built by `insert_or_update_offers`
(`unchanged` is declared by the code but never incremented). -/
structure UpsertStats where
  new : Nat
  updated : Nat
  unchanged : Nat
  deriving DecidableEq

/-- `insert_or_update_offers` (update_database.py:122): upsert every offer of
the list, classifying an offer as new when its id is not in the `existing_ids`
snapshot taken before the loop, else as updated. -/
def insert_or_update_offers (store : List Row) (offers : List RemoteOffer)
    (catId : Nat) (existingIds : List Nat) : List Row × UpsertStats :=
  match offers with
  | [] => (store, { new := 0, updated := 0, unchanged := 0 })
  | o :: rest =>
    let st1 := upsertRow store (o.toRow catId)
    let res := insert_or_update_offers st1 rest catId existingIds
    if existingIds.contains o.id then
      (res.1, { res.2 with updated := res.2.updated + 1 })
    else
      (res.1, { res.2 with new := res.2.new + 1 })

/-- `remove_deleted_offers` (update_database.py:189): delete every stored row
of the category whose id is absent from the current remote id set; returns the
new store and the number of deleted ids. -/
def remove_deleted_offers (store : List Row) (catId : Nat)
    (currentIds : List Nat) : List Row × Nat :=
  let existingIds := get_existing_offer_ids store catId
  let deletedIds := existingIds.filter (fun i => ¬ currentIds.contains i)
  if deletedIds.isEmpty then (store, 0)
  else
    (store.filter (fun r => ¬ (r.categoryId = catId ∧ deletedIds.contains r.id)),
     deletedIds.length)

/-- Observable behaviour of the remote service for one category fetch in
`fetch_all_offers_for_category` (update_database.py:80): a raised exception
(timeout, connection failure), a malformed or non-200 envelope, a confirmed
total of 0, or delivered offer data. -/
inductive FetchResponse where
  | err : FetchResponse
  | malformed : FetchResponse
  | okEmpty : FetchResponse
  | okData : List RemoteOffer → FetchResponse
  deriving DecidableEq

/-- A response that represents a fetch failure (exception or bad envelope),
as opposed to a confirmed result. -/
def FetchResponse.failed : FetchResponse → Bool
  | .err => true
  | .malformed => true
  | _ => false

/-- `fetch_all_offers_for_category` (update_database.py:80): exceptions and
malformed envelopes collapse to an empty offer list (the `except` branch and
the two early `return []`), a confirmed total of 0 returns the empty list,
and a successful data fetch returns the data. -/
def fetch_all_offers_for_category : FetchResponse → List RemoteOffer
  | .err => []
  | .malformed => []
  | .okEmpty => []
  | .okData offers => offers

/-- Per-category statistics returned by `update_category_data`. -/
structure CategoryStats where
  new : Nat
  updated : Nat
  deleted : Nat
  total : Nat
  deriving DecidableEq

/-- `update_category_data` (update_database.py:210): snapshot the existing id
set, fetch the remote offers, return all-zero statistics without touching the
store when the fetched list is empty; otherwise upsert all offers, and when
`full_update` is set delete the stored ids absent from the remote id set
(remote ids are collected through a Python truthiness filter, so id 0 is
dropped from the deletion-protection set exactly as in the source). -/
def update_category_data (store : List Row) (catId : Nat)
    (resp : FetchResponse) (fullUpdate : Bool) : List Row × CategoryStats :=
  let existingIds := get_existing_offer_ids store catId
  let offers := fetch_all_offers_for_category resp
  if offers.isEmpty then
    (store, { new := 0, updated := 0, deleted := 0, total := 0 })
  else
    let currentIds := ((offers.filter (fun o => o.id ≠ 0)).map (fun o => o.id)).dedup
    let ures := insert_or_update_offers store offers catId existingIds
    let dres := if fullUpdate then remove_deleted_offers ures.1 catId currentIds
                else (ures.1, 0)
    (dres.1,
     { new := ures.2.new, updated := ures.2.updated,
       deleted := dres.2, total := offers.length })

/-- The store evolution performed by the upsert loop of
`insert_or_update_offers`, separated from its statistics bookkeeping:
fold `INSERT OR REPLACE` over a list of rows. -/
def applyRows (store rows : List Row) : List Row :=
  rows.foldl upsertRow store

/-- Ascending insertion into a sorted list of prices. -/
def insertAsc (x : Int) : List Int → List Int
  | [] => [x]
  | y :: ys => if x ≤ y then x :: y :: ys else y :: insertAsc x ys

/-- Ascending sort of a price list (models the `ORDER BY unit_price` of the
median query in `get_price_distribution`). -/
def sortAsc (l : List Int) : List Int := l.foldr insertAsc []

/-- All positive unit prices of the store (`WHERE unit_price > 0`). -/
def positivePrices (store : List Row) : List Int :=
  (store.map (fun r => r.unitPrice)).filter (fun p => 0 < p)

/-- SQL `MIN` over a price list, with the Python-side `or 0` NULL guard for
the empty case. -/
def intMin : List Int → Int
  | [] => 0
  | x :: xs => xs.foldl min x

/-- SQL `MAX` over a price list, with the Python-side `or 0` NULL guard for
the empty case. -/
def intMax : List Int → Int
  | [] => 0
  | x :: xs => xs.foldl max x

/-- Result record of `get_price_distribution` (analyze_data.py:309). -/
structure PriceDist where
  totalOffers : Nat
  avgPrice : ℚ
  minPrice : Int
  maxPrice : Int
  medianPrice : ℚ
  under100k : Nat
  range100k500k : Nat
  range500k1m : Nat
  range1m5m : Nat
  range5m10m : Nat
  over10m : Nat
  deriving DecidableEq

/-- `get_price_distribution` (analyze_data.py:309): median over the fully
sorted list of positive unit prices (middle element for odd length, average
of the two middle elements for even length, 0 when empty), overall stats over
the positive prices, and the fixed-boundary six-bucket histogram with the
exact comparison operators of the SQL CASE conditions. -/
def get_price_distribution (store : List Row) : PriceDist :=
  let pos := positivePrices store
  let ps := sortAsc pos
  let n := ps.length
  let median : ℚ :=
    if n = 0 then 0
    else if n % 2 = 0 then
      ((ps.getD (n / 2 - 1) 0 + ps.getD (n / 2) 0 : Int) : ℚ) / 2
    else ((ps.getD (n / 2) 0 : Int) : ℚ)
  { totalOffers := pos.length
    avgPrice := if pos.isEmpty then 0 else (pos.sum : ℚ) / (pos.length : ℚ)
    minPrice := intMin pos
    maxPrice := intMax pos
    medianPrice := median
    under100k := pos.countP (fun p => p < 100000)
    range100k500k := pos.countP (fun p => 100000 ≤ p ∧ p < 500000)
    range500k1m := pos.countP (fun p => 500000 ≤ p ∧ p < 1000000)
    range1m5m := pos.countP (fun p => 1000000 ≤ p ∧ p < 5000000)
    range5m10m := pos.countP (fun p => 5000000 ≤ p ∧ p < 10000000)
    over10m := pos.countP (fun p => 10000000 ≤ p) }

/-- Modelled from the spec's words, for the refinement half of the median
claim: "exact median via a fully sorted price list — for even-length lists,
average of the two middle elements" (0 for an empty list, as the code
initialises `median = 0`). -/
def spec_exactMedian (s : List Int) : ℚ :=
  if s.length = 0 then 0
  else if s.length % 2 = 0 then
    ((s.getD (s.length / 2 - 1) 0 + s.getD (s.length / 2) 0 : Int) : ℚ) / 2
  else ((s.getD (s.length / 2) 0 : Int) : ℚ)

/-- The (product_name_ru, category_id) grouping key of `get_top_products`. -/
def key2 (r : Row) : String × Nat := (r.productName, r.categoryId)

/-- Rows surviving the WHERE clause of the aggregation query of
`get_top_products` (`product_name_ru IS NOT NULL AND product_name_ru != ''`,
NULL modelled as the empty string). The model covers the default call with no
date filters (`start_date = end_date = None`). -/
def namedRows (store : List Row) : List Row :=
  store.filter (fun r => r.productName ≠ "")

/-- Per-(product, category, measure) aggregate of the grouped SQL query of
`get_top_products` (the fields the later Python processing reads). -/
structure UnitStats where
  postCount : Nat
  avgPrice : ℚ
  minPrice : Int
  maxPrice : Int
  totalQuantity : Int
  deriving DecidableEq

/-- Aggregates of one (product, category, measure) SQL group. -/
def unitStatsOf (l : List Row) : UnitStats :=
  let prices : List Int := l.map (fun r => r.unitPrice)
  { postCount := l.length
    avgPrice := if l.isEmpty then 0 else ((prices.sum : Int) : ℚ) / (l.length : ℚ)
    minPrice := intMin prices
    maxPrice := intMax prices
    totalQuantity := (l.map (fun r => r.productQuantity)).sum }

/-- The measurement-unit labels occurring under one (product, category) key.
The SQL result order (`ORDER BY post_count DESC`) only fixes the iteration
order of the aggregation loop; no aggregated value read by a verified
property depends on it, so unit keys are taken in list order. -/
def unitNames (rows : List Row) (k : String × Nat) : List String :=
  ((rows.filter (fun r => key2 r = k)).map (fun r => r.measureName)).dedup

/-- The `measure_units` dict of one product: per-unit statistics keyed by
measurement-unit label. -/
def productUnits (rows : List Row) (k : String × Nat) : List (String × UnitStats) :=
  (unitNames rows k).map (fun m =>
    (m, unitStatsOf (rows.filter (fun r => key2 r = k ∧ r.measureName = m))))

/-- The `all_prices` list of one product: each unit's average price replicated
by that unit's post count (analyze_data.py:145). -/
def allPricesOf (units : List (String × UnitStats)) : List ℚ :=
  (units.map (fun u => List.replicate u.2.postCount u.2.avgPrice)).flatten

/-- Per-product record assembled by `get_top_products` (the fields read by
the verified properties; independent parallel fields such as certificate
percentages and quantity min/max are omitted). -/
structure ProductResult where
  productName : String
  categoryId : Nat
  postCount : Nat
  avgPrice : ℚ
  minPrice : Int
  maxPrice : Int
  totalQuantity : Int
  measureUnits : List (String × UnitStats)
  earliest : Option Nat
  latest : Option Nat
  distLow : Nat
  distMid : Nat
  distHigh : Nat
  deriving DecidableEq

/-- The combined date-range / price-distribution query of `get_top_products`,
run once per product inside the aggregation loop (analyze_data.py:189) and
once per surviving product after truncation (analyze_data.py:264): earliest
and latest posting date, plus counts of positive prices below 0.7×avg,
between 0.7×avg and 1.3×avg, and at or above 1.3×avg, over all offers of the
product (this query has no product-name emptiness filter). -/
def detailQuery (store : List Row) (name : String) (catId : Nat) (avg : ℚ) :
    Option Nat × Option Nat × Nat × Nat × Nat :=
  let rows := store.filter (fun r => r.productName = name ∧ r.categoryId = catId)
  let dates := rows.map (fun r => r.statusDate)
  (dates.min?, dates.max?,
   rows.countP (fun r => ((r.unitPrice : ℚ) < 7/10 * avg) ∧ 0 < r.unitPrice),
   rows.countP (fun r => (7/10 * avg ≤ (r.unitPrice : ℚ)) ∧
     ((r.unitPrice : ℚ) < 13/10 * avg) ∧ 0 < r.unitPrice),
   rows.countP (fun r => (13/10 * avg ≤ (r.unitPrice : ℚ)) ∧ 0 < r.unitPrice))

/-- The aggregation-loop body of `get_top_products` (analyze_data.py:150-236)
for one (product, category) key: per-unit statistics, the average over
`all_prices` (the empty-guard branch returns zeros as in the code), the
overall minimum over the positive per-unit minimum prices — where `none`
models the uncaught ValueError raised by Python's `min()` on an empty
sequence when no unit has a positive minimum price — the overall maximum,
and the per-product detail query. -/
def processKey (store rows : List Row) (k : String × Nat) : Option ProductResult :=
  let units := productUnits rows k
  let allPrices := allPricesOf units
  let postCount := (units.map (fun u => u.2.postCount)).sum
  let totalQty := (units.map (fun u => u.2.totalQuantity)).sum
  if allPrices.isEmpty then
    let d := detailQuery store k.1 k.2 0
    some { productName := k.1, categoryId := k.2, postCount := postCount,
           avgPrice := 0, minPrice := 0, maxPrice := 0,
           totalQuantity := totalQty, measureUnits := units,
           earliest := d.1, latest := d.2.1, distLow := d.2.2.1,
           distMid := d.2.2.2.1, distHigh := d.2.2.2.2 }
  else
    let wavg := allPrices.sum / (allPrices.length : ℚ)
    match (units.map (fun u => u.2.minPrice)).filter (fun p => 0 < p) with
    | [] => none
    | c :: cs =>
      let d := detailQuery store k.1 k.2 wavg
      some { productName := k.1, categoryId := k.2, postCount := postCount,
             avgPrice := wavg, minPrice := cs.foldl min c,
             maxPrice := intMax (units.map (fun u => u.2.maxPrice)),
             totalQuantity := totalQty, measureUnits := units,
             earliest := d.1, latest := d.2.1, distLow := d.2.2.1,
             distMid := d.2.2.2.1, distHigh := d.2.2.2.2 }

/-- The aggregation loop of `get_top_products` over the grouping keys: the
per-product records (or `none` once a key raises) and the number of
detail-query invocations performed inside this loop (the raising iteration
stops before its own detail query, as in the source). -/
def firstLoop (store rows : List Row) :
    List (String × Nat) → Option (List ProductResult) × Nat
  | [] => (some [], 0)
  | k :: ks =>
    match processKey store rows k with
    | none => (none, 0)
    | some res =>
      match firstLoop store rows ks with
      | (none, n) => (none, n + 1)
      | (some rest, n) => (some (res :: rest), n + 1)

/-- Stable insertion into a list sorted by descending post count. -/
def insertByCount (x : ProductResult) :
    List ProductResult → List ProductResult
  | [] => [x]
  | y :: ys =>
    if y.postCount ≤ x.postCount then x :: y :: ys else y :: insertByCount x ys

/-- Stable sort by descending post count (models Python's stable
`results.sort(key=..., reverse=True)`). -/
def sortByCountDesc (l : List ProductResult) : List ProductResult :=
  l.foldr insertByCount []

/-- The post-truncation detail pass of `get_top_products`
(analyze_data.py:248-292): re-run the combined date-range / histogram query
for one surviving product and overwrite its detail fields. -/
def applyDetail (store : List Row) (r : ProductResult) : ProductResult :=
  let d := detailQuery store r.productName r.categoryId r.avgPrice
  { r with earliest := d.1, latest := d.2.1, distLow := d.2.2.1,
           distMid := d.2.2.2.1, distHigh := d.2.2.2.2 }

/-- `get_top_products` (analyze_data.py:44) for the default no-date-filter
call: aggregate per (product, category) key over unit subgroups (running the
per-product detail query once per key inside the loop), sort by post count
descending, truncate to `limit`, then re-run the detail query once per
surviving product. The first component is the result list (`none` models the
uncaught ValueError of C9); the second counts how many times the per-product
date-range / histogram query ran. The category-name backfill join is
omitted: no verified property reads it. -/
def get_top_products (store : List Row) (limit : Nat) :
    Option (List ProductResult) × Nat :=
  let rows := namedRows store
  let keys := (rows.map key2).dedup
  match firstLoop store rows keys with
  | (none, n) => (none, n)
  | (some results, n) =>
    let top := (sortByCountDesc results).take limit
    (some (top.map (applyDetail store)), n + top.length)

/-- The spec's claimed aggregation for the product average price: the
unweighted arithmetic mean of the per-unit average prices (mean-of-means). -/
def meanOfUnitAverages (units : List (String × UnitStats)) : ℚ :=
  if units.isEmpty then 0
  else (units.map (fun u => u.2.avgPrice)).sum / (units.length : ℚ)

/-- The aggregation the code actually performs for the product average
price: the mean of per-unit average prices weighted by per-unit post
counts. -/
def weightedMeanOfUnitAverages (units : List (String × UnitStats)) : ℚ :=
  let total := (units.map (fun u => u.2.postCount)).sum
  if total = 0 then 0
  else (units.map (fun u => (u.2.postCount : ℚ) * u.2.avgPrice)).sum / (total : ℚ)

/-- Per-cycle statistics record of `RealTimeUpdater.update_data`
(realtime_updater.py:167); `errors` models the length of the error list. -/
structure CycleStats where
  newOffers : Nat
  updatedOffers : Nat
  deletedOffers : Nat
  categoriesProcessed : Nat
  errors : Nat
  deriving DecidableEq

/-- Per-category body of `RealTimeUpdater.update_data`
(realtime_updater.py:225-253): snapshot existing ids, fetch, skip the
category when the fetched list is empty, otherwise upsert all offers and
unconditionally remove stored offers of the category absent from the remote
id set (the realtime updater always runs the deletion pass). -/
def processCategoryRealtime (resp : Nat → FetchResponse)
    (acc : List Row × CycleStats) (catId : Nat) : List Row × CycleStats :=
  let store := acc.1
  let cs := acc.2
  let existingIds := get_existing_offer_ids store catId
  let offers := fetch_all_offers_for_category (resp catId)
  if offers.isEmpty then
    (store, { cs with categoriesProcessed := cs.categoriesProcessed + 1 })
  else
    let ures := insert_or_update_offers store offers catId existingIds
    let currentIds := (offers.map (fun o => o.id)).dedup
    let dres := remove_deleted_offers ures.1 catId currentIds
    (dres.1,
     { cs with
        newOffers := cs.newOffers + ures.2.new
        updatedOffers := cs.updatedOffers + ures.2.updated
        deletedOffers := cs.deletedOffers + dres.2
        categoriesProcessed := cs.categoriesProcessed + 1 })

/-- One update cycle of `RealTimeUpdater.update_data`
(realtime_updater.py:161) under the default configuration (no per-cycle
category cap): an empty category fetch aborts the cycle with a cycle-level
error and writes no signal; otherwise every category is processed
sequentially and the `cache_control.json` should-refresh signal
(`clear_dashboard_cache`, realtime_updater.py:149) is written exactly when
the cycle counted any new, updated or deleted offer
(realtime_updater.py:273). The third component is the signal artifact:
`none` when not written, `some true` when written with
`should_refresh = True`. -/
def update_data (store : List Row) (categories : List Nat)
    (resp : Nat → FetchResponse) : List Row × CycleStats × Option Bool :=
  if categories.isEmpty then
    (store,
     { newOffers := 0, updatedOffers := 0, deletedOffers := 0,
       categoriesProcessed := 0, errors := 1 }, none)
  else
    let res := categories.foldl (processCategoryRealtime resp)
      (store,
       { newOffers := 0, updatedOffers := 0, deletedOffers := 0,
         categoriesProcessed := 0, errors := 0 })
    let signal : Option Bool :=
      if res.2.newOffers > 0 || res.2.updatedOffers > 0 ||
          res.2.deletedOffers > 0
      then some true else none
    (res.1, res.2, signal)

/-- Concrete store for the C2 scenario: category 7 holds exactly offer
ids 1, 2, 3. -/
def storeC2 : List Row :=
  [ { id := 1, categoryId := 7, productName := "a", measureName := "kg",
      unitPrice := 10, productQuantity := 1, statusDate := 1 },
    { id := 2, categoryId := 7, productName := "b", measureName := "kg",
      unitPrice := 20, productQuantity := 1, statusDate := 2 },
    { id := 3, categoryId := 7, productName := "c", measureName := "kg",
      unitPrice := 30, productQuantity := 1, statusDate := 3 } ]

/-- Concrete remote snapshot for the C2 scenario: offer ids 2, 3, 4. -/
def remoteC2 : List RemoteOffer :=
  [ { id := 2, productName := "b", measureName := "kg",
      unitPrice := 21, productQuantity := 1, statusDate := 4 },
    { id := 3, productName := "c", measureName := "kg",
      unitPrice := 31, productQuantity := 1, statusDate := 5 },
    { id := 4, productName := "d", measureName := "kg",
      unitPrice := 40, productQuantity := 1, statusDate := 6 } ]

/-- A store row carrying only an id and a unit price (the fields relevant to
the global price-distribution properties). -/
def priceRow (i : Nat) (p : Int) : Row :=
  { id := i, categoryId := 1, productName := "p", measureName := "kg",
    unitPrice := p, productQuantity := 1, statusDate := i }

/-- Concrete store whose positive prices are 10, 20, 30, 40 (plus one
zero-price row that the positivity filter must drop). -/
def storeMedianEven : List Row :=
  [priceRow 1 40, priceRow 2 10, priceRow 3 0, priceRow 4 30, priceRow 5 20]

/-- Concrete store whose positive prices are 10, 20, 30. -/
def storeMedianOdd : List Row :=
  [priceRow 1 30, priceRow 2 10, priceRow 3 20]

/-- C3 failing input: two distinct products with one positively priced offer
each. -/
def storeC3 : List Row :=
  [ { id := 1, categoryId := 1, productName := "A", measureName := "kg",
      unitPrice := 10, productQuantity := 1, statusDate := 1 },
    { id := 2, categoryId := 1, productName := "B", measureName := "kg",
      unitPrice := 20, productQuantity := 1, statusDate := 2 } ]

/-- C4 counterexample store: one product with two measurement units — two
offers at price 10 under "kg" and one offer at price 40 under "t". -/
def storeC4 : List Row :=
  [ { id := 1, categoryId := 1, productName := "P", measureName := "kg",
      unitPrice := 10, productQuantity := 1, statusDate := 1 },
    { id := 2, categoryId := 1, productName := "P", measureName := "kg",
      unitPrice := 10, productQuantity := 1, statusDate := 2 },
    { id := 3, categoryId := 1, productName := "P", measureName := "t",
      unitPrice := 40, productQuantity := 1, statusDate := 3 } ]

/-- Default product record used only to extract concrete computation
results. -/
def emptyProduct : ProductResult :=
  { productName := "", categoryId := 0, postCount := 0, avgPrice := 0,
    minPrice := 0, maxPrice := 0, totalQuantity := 0, measureUnits := [],
    earliest := none, latest := none, distLow := 0, distMid := 0,
    distHigh := 0 }

/-- The single product record computed by `get_top_products` on the C4
counterexample store. -/
def productC4 : ProductResult :=
  (((get_top_products storeC4 10).1).getD []).getD 0 emptyProduct

/-- C9 error store: a product all of whose offers have zero unit price. -/
def storeC9err : List Row :=
  [ { id := 1, categoryId := 1, productName := "Z", measureName := "kg",
      unitPrice := 0, productQuantity := 1, statusDate := 1 } ]

/-- C9 totality-witness store: every product group has a measurement unit
with a positive minimum price. -/
def storeC9ok : List Row :=
  [ { id := 1, categoryId := 1, productName := "A", measureName := "kg",
      unitPrice := 5, productQuantity := 1, statusDate := 1 },
    { id := 2, categoryId := 2, productName := "B", measureName := "t",
      unitPrice := 9, productQuantity := 1, statusDate := 2 } ]

/-- C1: for every store, category and full-update flag, when the remote fetch
fails (timeout / exception or malformed / non-200 envelope),
`update_category_data` leaves the store completely unchanged and reports
all-zero statistics; in particular the stored offer set (and hence the stored
offer count) of the category does not change, even with `full_update = true`. -/
theorem c1_fetch_failure_preserves_store (store : List Row) (catId : Nat)
    (resp : FetchResponse) (fullUpdate : Bool) (h : resp.failed = true) :
    (update_category_data store catId resp fullUpdate).1 = store ∧
    (update_category_data store catId resp fullUpdate).2 =
      { new := 0, updated := 0, deleted := 0, total := 0 } := by
  cases resp with
  | err => exact ⟨rfl, rfl⟩
  | malformed => exact ⟨rfl, rfl⟩
  | okEmpty => simp [FetchResponse.failed] at h
  | okData offers => simp [FetchResponse.failed] at h

/-- Witness for C1: a failing fetch against a one-row store under
`full_update = true` keeps the row. -/
theorem c1_fetch_failure_preserves_store_witness :
    FetchResponse.failed .err = true ∧
    (update_category_data storeC2 7 .err true).1 = storeC2 := by
  exact ⟨rfl, (c1_fetch_failure_preserves_store storeC2 7 .err true rfl).1⟩

/-- C2: with store ids having exactly ids 1, 2, 3 in category 7 and a remote
snapshot with ids 2, 3, 4, a full update classifies id 4 as new, ids 2 and 3
as updated, deletes id 1, and leaves the category's stored id set exactly
at 2, 3, 4. -/
theorem c2_full_update_diff_scenario :
    (update_category_data storeC2 7 (.okData remoteC2) true).2 =
      { new := 1, updated := 2, deleted := 1, total := 3 } ∧
    ((update_category_data storeC2 7 (.okData remoteC2) true).1).map
        (fun r => r.id) = [2, 3, 4] := by
  constructor <;> decide

/-- C10: for every store, category and full-update flag, whenever the fetched
offer list is empty — remote category confirmed empty (total 0), malformed
envelope, failed fetch, or an ok response with no data — `update_category_data`
returns all-zero statistics and performs no store write and no deletion, so a
category emptied on the remote side keeps its stale local offers. -/
theorem c10_empty_fetch_is_a_no_op (store : List Row) (catId : Nat)
    (resp : FetchResponse) (fullUpdate : Bool)
    (h : fetch_all_offers_for_category resp = []) :
    update_category_data store catId resp fullUpdate =
      (store, { new := 0, updated := 0, deleted := 0, total := 0 }) := by
  unfold update_category_data
  simp [h]

/-- Witness for C10: a confirmed-empty remote category under
`full_update = true` leaves a non-empty store untouched. -/
theorem c10_empty_fetch_is_a_no_op_witness :
    fetch_all_offers_for_category .okEmpty = [] ∧
    update_category_data storeC2 7 .okEmpty true =
      (storeC2, { new := 0, updated := 0, deleted := 0, total := 0 }) :=
  ⟨rfl, c10_empty_fetch_is_a_no_op storeC2 7 .okEmpty true rfl⟩

/-- The store component of `insert_or_update_offers` is the fold of upserts
of the converted rows; classification does not influence the write path. -/
theorem insert_or_update_offers_fst (offers : List RemoteOffer)
    (store : List Row) (catId : Nat) (ex : List Nat) :
    (insert_or_update_offers store offers catId ex).1 =
      applyRows store (offers.map (RemoteOffer.toRow catId)) := by
  induction offers generalizing store with
  | nil => rfl
  | cons o rest ih =>
    simp only [insert_or_update_offers, List.map_cons, applyRows,
      List.foldl_cons]
    split <;> exact ih (upsertRow store (o.toRow catId))

/-- The `new` counter of `insert_or_update_offers` counts the offers whose id
is absent from the `existing_ids` snapshot. -/
theorem insert_or_update_offers_new (offers : List RemoteOffer)
    (store : List Row) (catId : Nat) (ex : List Nat) :
    (insert_or_update_offers store offers catId ex).2.new =
      (offers.filter (fun o => ! ex.contains o.id)).length := by
  induction offers generalizing store with
  | nil => rfl
  | cons o rest ih =>
    simp only [insert_or_update_offers, List.filter_cons]
    by_cases hm : o.id ∈ ex <;> simp [hm, ih]

/-- The `updated` counter of `insert_or_update_offers` counts the offers whose
id is present in the `existing_ids` snapshot. -/
theorem insert_or_update_offers_updated (offers : List RemoteOffer)
    (store : List Row) (catId : Nat) (ex : List Nat) :
    (insert_or_update_offers store offers catId ex).2.updated =
      (offers.filter (fun o => ex.contains o.id)).length := by
  induction offers generalizing store with
  | nil => rfl
  | cons o rest ih =>
    simp only [insert_or_update_offers, List.filter_cons]
    by_cases hm : o.id ∈ ex <;> simp [hm, ih]

/-- Decomposition of an upsert fold: the resulting store is the untouched
rows (ids disjoint from the written id set) followed by the rows produced by
folding the same writes over the empty store. -/
theorem applyRows_decomp (rows : List Row) (store : List Row) :
    applyRows store rows =
      store.filter (fun r => ! (rows.map Row.id).contains r.id) ++
        applyRows [] rows := by
  induction rows generalizing store with
  | nil => simp [applyRows]
  | cons a rs ih =>
    have hl : applyRows store (a :: rs) = applyRows (upsertRow store a) rs := rfl
    have hr : applyRows [] (a :: rs) = applyRows (upsertRow [] a) rs := rfl
    rw [hl, ih (upsertRow store a), hr, ih (upsertRow [] a)]
    simp only [upsertRow, List.filter_append, List.filter_filter,
      List.filter_nil, List.nil_append, List.map_cons, List.append_assoc]
    congr 2
    funext r
    by_cases h : r.id = a.id <;> simp [h, List.contains_cons, Bool.and_comm]

/-- Every row of an upsert fold comes from the initial store or from the
written rows. -/
theorem mem_applyRows (r : Row) (rows : List Row) (store : List Row)
    (h : r ∈ applyRows store rows) : r ∈ store ∨ r ∈ rows := by
  induction rows generalizing store with
  | nil => exact Or.inl h
  | cons a rs ih =>
    rcases ih (upsertRow store a) h with h1 | h1
    · simp only [upsertRow, List.mem_append, List.mem_filter,
        List.mem_singleton] at h1
      rcases h1 with ⟨h2, _⟩ | h2
      · exact Or.inl h2
      · exact Or.inr (by simp [h2])
    · exact Or.inr (List.mem_cons_of_mem a h1)

/-- Ids present in the store stay present through an upsert fold. -/
theorem id_mem_applyRows_of_mem_store (i : Nat) (rows : List Row)
    (store : List Row) (h : i ∈ store.map Row.id) :
    i ∈ (applyRows store rows).map Row.id := by
  induction rows generalizing store with
  | nil => exact h
  | cons a rs ih =>
    apply ih (upsertRow store a)
    obtain ⟨r, hr, hid⟩ := List.mem_map.mp h
    by_cases hc : r.id = a.id
    · exact List.mem_map.mpr ⟨a, by simp [upsertRow], by rw [← hid, hc]⟩
    · refine List.mem_map.mpr ⟨r, ?_, hid⟩
      simp [upsertRow, hr, hc]

/-- Every id of the written row list is present after the upsert fold. -/
theorem id_mem_applyRows_of_mem_rows (i : Nat) (rows : List Row)
    (store : List Row) (h : i ∈ rows.map Row.id) :
    i ∈ (applyRows store rows).map Row.id := by
  induction rows generalizing store with
  | nil => simp at h
  | cons a rs ih =>
    simp only [List.map_cons, List.mem_cons] at h
    rcases h with h | h
    · show i ∈ (applyRows (upsertRow store a) rs).map Row.id
      apply id_mem_applyRows_of_mem_store
      refine List.mem_map.mpr ⟨a, ?_, h.symm⟩
      unfold upsertRow
      exact List.mem_append_right _ (by simp)
    · exact ih (upsertRow store a) h

/-- For every id of the written row list there is a row carrying that id in
the fold over the empty store, and that row is one of the written rows. -/
theorem exists_row_applyRows_nil (i : Nat) (rows : List Row)
    (h : i ∈ rows.map Row.id) :
    ∃ r, r ∈ applyRows [] rows ∧ r.id = i ∧ r ∈ rows := by
  obtain ⟨r, hr, hid⟩ := List.mem_map.mp
    (id_mem_applyRows_of_mem_rows i rows [] h)
  rcases mem_applyRows r rows [] hr with h1 | h1
  · simp at h1
  · exact ⟨r, hr, hid, h1⟩

/-- Replaying the same upsert fold a second time leaves the store unchanged. -/
theorem applyRows_idem (store rows : List Row) :
    applyRows (applyRows store rows) rows = applyRows store rows := by
  have h1 : (applyRows [] rows).filter
      (fun r => ! (rows.map Row.id).contains r.id) = [] := by
    apply List.filter_eq_nil_iff.mpr
    intro r hr
    rcases mem_applyRows r rows [] hr with h | h
    · simp at h
    · simp [List.contains, List.elem_iff, List.mem_map.mpr ⟨r, h, rfl⟩]
  conv_lhs => rw [applyRows_decomp rows (applyRows store rows)]
  conv_lhs => rw [applyRows_decomp rows store]
  rw [List.filter_append, h1, List.append_nil, List.filter_filter,
    applyRows_decomp rows store]
  simp

/-- C5: replaying the same remote snapshot in incremental mode is idempotent:
on the second application every offer of the snapshot is classified as
updated (new = 0, updated = snapshot length) and the store content after the
second application equals the content after the first. -/
theorem c5_incremental_replay_idempotent (store0 : List Row) (catId : Nat)
    (S : List RemoteOffer) :
    (update_category_data
        ((update_category_data store0 catId (.okData S) false).1)
        catId (.okData S) false).2.new = 0 ∧
    (update_category_data
        ((update_category_data store0 catId (.okData S) false).1)
        catId (.okData S) false).2.updated = S.length ∧
    (update_category_data
        ((update_category_data store0 catId (.okData S) false).1)
        catId (.okData S) false).1 =
      (update_category_data store0 catId (.okData S) false).1 := by
  cases S with
  | nil => exact ⟨rfl, rfl, rfl⟩
  | cons o rest =>
    set S := o :: rest with hS
    have hne : (fetch_all_offers_for_category (.okData S)).isEmpty = false := by
      simp [fetch_all_offers_for_category, hS]
    set rows := S.map (RemoteOffer.toRow catId) with hrows
    have hstore1 : (update_category_data store0 catId (.okData S) false).1 =
        applyRows store0 rows := by
      unfold update_category_data
      simp only [hne, Bool.false_eq_true, if_false, fetch_all_offers_for_category]
      exact insert_or_update_offers_fst S store0 catId _
    set store1 := applyRows store0 rows with hstore1def
    have hcontains : ∀ o' ∈ S,
        o'.id ∈ get_existing_offer_ids store1 catId := by
      intro o' ho'
      have hid : o'.id ∈ rows.map Row.id := by
        rw [hrows, List.map_map]
        exact List.mem_map.mpr ⟨o', ho', rfl⟩
      obtain ⟨r, hrmem, hrid, hrrows⟩ := exists_row_applyRows_nil o'.id rows hid
      have hcat : r.categoryId = catId := by
        obtain ⟨o2, _, ho2⟩ := List.mem_map.mp (hrows ▸ hrrows)
        rw [← ho2]; rfl
      have hrstore1 : r ∈ store1 := by
        rw [hstore1def, applyRows_decomp]
        exact List.mem_append_right _ hrmem
      unfold get_existing_offer_ids
      rw [List.mem_dedup]
      exact List.mem_map.mpr ⟨r, List.mem_filter.mpr ⟨hrstore1, by simp [hcat]⟩, hrid⟩
    have hsecond : ∀ P : (List Row × CategoryStats) → Prop,
        (P (let ex := get_existing_offer_ids store1 catId
            let ures := insert_or_update_offers store1 S catId ex
            (ures.1, { new := ures.2.new, updated := ures.2.updated,
                       deleted := 0, total := S.length }))) →
        P (update_category_data store1 catId (.okData S) false) := by
      intro P hP
      unfold update_category_data
      simp only [hne, Bool.false_eq_true, if_false, fetch_all_offers_for_category]
      exact hP
    rw [hstore1]
    refine ⟨?_, ?_, ?_⟩
    · apply hsecond (fun p => p.2.new = 0)
      simp only [insert_or_update_offers_new]
      rw [List.length_eq_zero, List.filter_eq_nil_iff]
      intro o' ho'
      simp [List.contains, List.elem_iff, hcontains o' ho']
    · apply hsecond (fun p => p.2.updated = S.length)
      simp only [insert_or_update_offers_updated]
      congr 1
      apply List.filter_eq_self.mpr
      intro o' ho'
      simp [List.contains, List.elem_iff, hcontains o' ho']
    · apply hsecond (fun p => p.1 = store1)
      simp only [insert_or_update_offers_fst]
      exact applyRows_idem store0 rows

/-- C6: the global price-distribution median is the exact median of the fully
sorted list of all positive unit prices (middle element for odd length,
average of the two middle elements for even length); in particular positive
prices 10, 20, 30, 40 give median 25 and 10, 20, 30 give median 20. -/
theorem c6_median_is_exact_sorted_median :
    (∀ store : List Row, (get_price_distribution store).medianPrice =
        spec_exactMedian (sortAsc (positivePrices store))) ∧
    (get_price_distribution storeMedianEven).medianPrice = 25 ∧
    (get_price_distribution storeMedianOdd).medianPrice = 20 :=
  ⟨fun _ => rfl,
   by norm_num [get_price_distribution, storeMedianEven, positivePrices,
     priceRow, sortAsc, insertAsc],
   by norm_num [get_price_distribution, storeMedianOdd, positivePrices,
     priceRow, sortAsc, insertAsc]⟩

/-- C7: in the global fixed-boundary histogram, a positive price exactly
equal to a bucket boundary (100000, 500000, 1000000, 5000000, 10000000) is
counted in the upper bucket and never in the lower one: appending an offer
priced exactly at a boundary increments the upper bucket's count and leaves
the lower bucket's count unchanged. -/
theorem c7_boundary_prices_count_in_upper_bucket (store : List Row) (i : Nat) :
    (get_price_distribution (store ++ [priceRow i 100000])).range100k500k =
      (get_price_distribution store).range100k500k + 1 ∧
    (get_price_distribution (store ++ [priceRow i 100000])).under100k =
      (get_price_distribution store).under100k ∧
    (get_price_distribution (store ++ [priceRow i 500000])).range500k1m =
      (get_price_distribution store).range500k1m + 1 ∧
    (get_price_distribution (store ++ [priceRow i 500000])).range100k500k =
      (get_price_distribution store).range100k500k ∧
    (get_price_distribution (store ++ [priceRow i 1000000])).range1m5m =
      (get_price_distribution store).range1m5m + 1 ∧
    (get_price_distribution (store ++ [priceRow i 1000000])).range500k1m =
      (get_price_distribution store).range500k1m ∧
    (get_price_distribution (store ++ [priceRow i 5000000])).range5m10m =
      (get_price_distribution store).range5m10m + 1 ∧
    (get_price_distribution (store ++ [priceRow i 5000000])).range1m5m =
      (get_price_distribution store).range1m5m ∧
    (get_price_distribution (store ++ [priceRow i 10000000])).over10m =
      (get_price_distribution store).over10m + 1 ∧
    (get_price_distribution (store ++ [priceRow i 10000000])).range5m10m =
      (get_price_distribution store).range5m10m := by
  refine ⟨?_, ?_, ?_, ?_, ?_, ?_, ?_, ?_, ?_, ?_⟩ <;>
    simp [get_price_distribution, positivePrices, priceRow,
      List.filter_append, List.countP_append]

/-- C8: a realtime update cycle writes the should-refresh cache signal with
`should_refresh = true` exactly when some offer was added, updated or
deleted: all-zero counts write no signal, any nonzero count writes the
signal. -/
theorem c8_change_signal_iff_data_changed (store : List Row)
    (categories : List Nat) (resp : Nat → FetchResponse) :
    ((update_data store categories resp).2.1.newOffers = 0 ∧
     (update_data store categories resp).2.1.updatedOffers = 0 ∧
     (update_data store categories resp).2.1.deletedOffers = 0 →
       (update_data store categories resp).2.2 = none) ∧
    ((update_data store categories resp).2.1.newOffers ≠ 0 ∨
     (update_data store categories resp).2.1.updatedOffers ≠ 0 ∨
     (update_data store categories resp).2.1.deletedOffers ≠ 0 →
       (update_data store categories resp).2.2 = some true) := by
  unfold update_data
  by_cases h : categories.isEmpty
  · simp [h]
  · simp only [h, Bool.false_eq_true, if_false]
    constructor
    · rintro ⟨h1, h2, h3⟩
      simp [h1, h2, h3]
    · intro h1
      rcases h1 with h1 | h1 | h1 <;> simp [Nat.pos_of_ne_zero h1]

/-- Witness for C8: an all-failing cycle writes no signal; a cycle inserting
a new offer writes the signal with `should_refresh = true`. -/
theorem c8_change_signal_iff_data_changed_witness :
    (update_data storeC2 [7] (fun _ => .err)).2.2 = none ∧
    (update_data [] [1] (fun _ => .okData remoteC2)).2.2 = some true := by
  constructor
  · exact (c8_change_signal_iff_data_changed storeC2 [7]
      (fun _ => .err)).1 (by decide)
  · exact (c8_change_signal_iff_data_changed [] [1]
      (fun _ => .okData remoteC2)).2 (Or.inl (by decide))

/-- C3 (refuting the stated property; the code contradicts its own comment
"Sort by post count and limit BEFORE expensive queries"): on a store with two
product groups and `limit = 1`, the per-product date-range / histogram query
runs 3 times — once per aggregated product group inside the aggregation loop,
before truncation, and then once more for the single product surviving
truncation — not `limit = 1` times. -/
theorem c3_detail_query_runs_once_per_group_before_truncation :
    (get_top_products storeC3 1).2 = 3 ∧
    (get_top_products storeC3 1).2 ≠ 1 := by
  constructor <;> decide

/-- The length of `all_prices` equals the total post count over the units. -/
theorem length_allPricesOf (units : List (String × UnitStats)) :
    (allPricesOf units).length = (units.map (fun u => u.2.postCount)).sum := by
  induction units with
  | nil => rfl
  | cons u us ih =>
    have hsplit : allPricesOf (u :: us) =
        List.replicate u.2.postCount u.2.avgPrice ++ allPricesOf us := rfl
    rw [hsplit, List.length_append, List.length_replicate, ih,
      List.map_cons, List.sum_cons]

/-- The sum of `all_prices` equals the post-count-weighted sum of the
per-unit average prices. -/
theorem sum_allPricesOf (units : List (String × UnitStats)) :
    (allPricesOf units).sum =
      (units.map (fun u => (u.2.postCount : ℚ) * u.2.avgPrice)).sum := by
  induction units with
  | nil => rfl
  | cons u us ih =>
    have hsplit : allPricesOf (u :: us) =
        List.replicate u.2.postCount u.2.avgPrice ++ allPricesOf us := rfl
    rw [hsplit, List.sum_append, List.sum_replicate, ih,
      List.map_cons, List.sum_cons, nsmul_eq_mul]

/-- Every product record produced by the aggregation-loop body carries the
post-count-weighted mean of its per-unit average prices as `avgPrice`. -/
theorem processKey_avgPrice (store rows : List Row) (k : String × Nat)
    (r : ProductResult) (h : processKey store rows k = some r) :
    r.avgPrice = weightedMeanOfUnitAverages r.measureUnits := by
  unfold processKey at h
  by_cases he : (allPricesOf (productUnits rows k)).isEmpty
  · simp only [he, if_true] at h
    obtain rfl := Option.some.inj h
    have htotal :
        ((productUnits rows k).map (fun u => u.2.postCount)).sum = 0 := by
      rw [← length_allPricesOf, List.length_eq_zero]
      exact List.isEmpty_iff.mp he
    simp [weightedMeanOfUnitAverages, htotal]
  · simp only [he, Bool.false_eq_true, if_false] at h
    rcases hcand : (((productUnits rows k)).map
        (fun u => u.2.minPrice)).filter (fun p => 0 < p) with _ | ⟨c, cs⟩
    · rw [hcand] at h
      exact absurd h (by simp)
    · rw [hcand] at h
      obtain rfl := Option.some.inj h
      have hlen : ((productUnits rows k).map (fun u => u.2.postCount)).sum =
          (allPricesOf (productUnits rows k)).length :=
        (length_allPricesOf _).symm
      have hne : (allPricesOf (productUnits rows k)).length ≠ 0 := by
        intro h0
        exact absurd (List.isEmpty_iff.mpr (List.length_eq_zero.mp h0)) he
      simp only [weightedMeanOfUnitAverages, hlen, hne, if_false,
        ← sum_allPricesOf]

/-- Membership characterisation of the stable insertion step. -/
theorem mem_insertByCount (x y : ProductResult) (l : List ProductResult) :
    y ∈ insertByCount x l ↔ y = x ∨ y ∈ l := by
  induction l with
  | nil => simp [insertByCount]
  | cons a as ih =>
    unfold insertByCount
    split
    · simp
    · simp [ih]
      tauto

/-- Sorting by descending post count preserves membership. -/
theorem mem_of_mem_sortByCountDesc (y : ProductResult)
    (l : List ProductResult) (h : y ∈ sortByCountDesc l) : y ∈ l := by
  induction l with
  | nil => simp [sortByCountDesc] at h
  | cons a as ih =>
    rcases (mem_insertByCount a y (sortByCountDesc as)).mp h with h1 | h1
    · simp [h1]
    · exact List.mem_cons_of_mem a (ih h1)

/-- Every record of a successful aggregation loop was produced by the
loop body for some key. -/
theorem firstLoop_mem (store rows : List Row) (keys : List (String × Nat)) :
    ∀ (res : List ProductResult) (n : Nat),
      firstLoop store rows keys = (some res, n) →
      ∀ r ∈ res, ∃ k, processKey store rows k = some r := by
  induction keys with
  | nil =>
    intro res n h r hr
    simp only [firstLoop, Prod.mk.injEq] at h
    obtain rfl := Option.some.inj h.1.symm
    simp at hr
  | cons k ks ih =>
    intro res n h r hr
    simp only [firstLoop] at h
    rcases hpk : processKey store rows k with _ | res0
    · rw [hpk] at h
      simp at h
    · rw [hpk] at h
      rcases hfl : firstLoop store rows ks with ⟨o, m⟩
      rw [hfl] at h
      cases o with
      | none => simp at h
      | some rest =>
        simp only [Prod.mk.injEq] at h
        obtain rfl := Option.some.inj h.1.symm
        rcases List.mem_cons.mp hr with h2 | h2
        · exact ⟨k, h2 ▸ hpk⟩
        · exact ih rest m (by rw [hfl]) r h2

/-- Amended C4: for every product record returned by `get_top_products`, the
reported `avg_price` is the mean of the per-unit average prices weighted by
per-unit post counts (equivalently, since each unit average is itself the
mean of that unit's offers, the plain mean over all of the product's
offers) — not the unweighted mean-of-means the spec describes. -/
theorem c4_avg_price_is_count_weighted_mean (store : List Row) (limit : Nat)
    (res : List ProductResult) (r : ProductResult)
    (h : (get_top_products store limit).1 = some res) (hr : r ∈ res) :
    r.avgPrice = weightedMeanOfUnitAverages r.measureUnits := by
  unfold get_top_products at h
  simp only [] at h
  split at h
  next n heq => simp at h
  next results n heq =>
    simp only at h
    obtain rfl := Option.some.inj h.symm
    obtain ⟨r0, hr0top, hr0⟩ := List.mem_map.mp hr
    have hr0res : r0 ∈ results :=
      mem_of_mem_sortByCountDesc r0 results (List.mem_of_mem_take hr0top)
    obtain ⟨k, hk⟩ :=
      firstLoop_mem store (namedRows store) _ results n heq r0 hr0res
    have havg : r.avgPrice = r0.avgPrice := by rw [← hr0]; rfl
    have hunits : r.measureUnits = r0.measureUnits := by rw [← hr0]; rfl
    rw [havg, hunits]
    exact processKey_avgPrice store (namedRows store) k r0 hk

/-- Evaluation of `get_top_products` on the C4 counterexample store: exactly
one product record is produced. -/
theorem get_top_products_storeC4_eq :
    (get_top_products storeC4 10).1 = some [productC4] := by
  have hlen : ((get_top_products storeC4 10).1.map List.length) = some 1 := by
    decide
  rcases hx : (get_top_products storeC4 10).1 with _ | l
  · rw [hx] at hlen
    simp at hlen
  · rw [hx] at hlen
    have hl1 : l.length = 1 := by simpa using hlen
    rcases l with _ | ⟨a, l2⟩
    · simp at hl1
    · rcases l2 with _ | ⟨b, l3⟩
      · simp [productC4, hx]
      · simp at hl1

/-- C4 counterexample: on a store with one product having two offers at
price 10 under unit "kg" and one offer at price 40 under unit "t",
`get_top_products` reports `avg_price = 20` (the count-weighted mean), while
the unweighted mean of the per-unit average prices is 25 — so the reported
average is not the claimed mean-of-means. -/
theorem c4_avg_price_counterexample :
    ((get_top_products storeC4 10).1.map (fun l => l.map (fun r =>
        (r.avgPrice, meanOfUnitAverages r.measureUnits)))) =
      some [((20 : ℚ), (25 : ℚ))] ∧
    (20 : ℚ) ≠ 25 := by
  refine ⟨?_, by norm_num⟩
  rw [get_top_products_storeC4_eq]
  have ha : productC4.avgPrice =
      (allPricesOf (productUnits (namedRows storeC4) ("P", 1))).sum /
        ((allPricesOf (productUnits (namedRows storeC4) ("P", 1))).length : ℚ) :=
    rfl
  have hu : productC4.measureUnits =
      productUnits (namedRows storeC4) ("P", 1) := rfl
  have hnames : unitNames (namedRows storeC4) ("P", 1) = ["kg", "t"] := by
    decide
  have hkg : (namedRows storeC4).filter
      (fun r => key2 r = ("P", 1) ∧ r.measureName = "kg") =
      [ { id := 1, categoryId := 1, productName := "P", measureName := "kg",
          unitPrice := 10, productQuantity := 1, statusDate := 1 },
        { id := 2, categoryId := 1, productName := "P", measureName := "kg",
          unitPrice := 10, productQuantity := 1, statusDate := 2 } ] := by
    decide
  have ht : (namedRows storeC4).filter
      (fun r => key2 r = ("P", 1) ∧ r.measureName = "t") =
      [ { id := 3, categoryId := 1, productName := "P", measureName := "t",
          unitPrice := 40, productQuantity := 1, statusDate := 3 } ] := by
    decide
  have hpu : productUnits (namedRows storeC4) ("P", 1) =
      [ ("kg", unitStatsOf
          [ { id := 1, categoryId := 1, productName := "P",
              measureName := "kg", unitPrice := 10, productQuantity := 1,
              statusDate := 1 },
            { id := 2, categoryId := 1, productName := "P",
              measureName := "kg", unitPrice := 10, productQuantity := 1,
              statusDate := 2 } ]),
        ("t", unitStatsOf
          [ { id := 3, categoryId := 1, productName := "P",
              measureName := "t", unitPrice := 40, productQuantity := 1,
              statusDate := 3 } ]) ] := by
    simp only [productUnits, hnames, List.map_cons, List.map_nil, hkg, ht]
  show some [(productC4.avgPrice, meanOfUnitAverages productC4.measureUnits)] =
    some [((20 : ℚ), (25 : ℚ))]
  rw [ha, hu, hpu]
  norm_num [allPricesOf, unitStatsOf, meanOfUnitAverages]

/-- Witness for the amended C4 theorem at the concrete counterexample
store. -/
theorem c4_avg_price_is_count_weighted_mean_witness :
    (get_top_products storeC4 10).1 = some [productC4] ∧
    productC4.avgPrice = weightedMeanOfUnitAverages productC4.measureUnits :=
  ⟨get_top_products_storeC4_eq,
   c4_avg_price_is_count_weighted_mean storeC4 10 [productC4]
     productC4 get_top_products_storeC4_eq (by simp)⟩

/-- C9: `get_top_products` is not total — on a store whose product has only
zero-priced offers the overall-min computation takes the minimum of an empty
sequence and the operation errors instead of returning a result — and it is
total whenever every product group has at least one measurement unit with a
positive minimum price. -/
theorem c9_overall_min_partiality :
    (get_top_products storeC9err 5).1 = none ∧
    ∀ (store : List Row) (limit : Nat),
      (∀ k ∈ ((namedRows store).map key2).dedup,
        ∃ u ∈ productUnits (namedRows store) k, 0 < u.2.minPrice) →
      ((get_top_products store limit).1).isSome = true := by
  constructor
  · decide
  · intro store limit hpre
    unfold get_top_products
    have hloop : ∀ keys : List (String × Nat),
        (∀ k ∈ keys, ∃ u ∈ productUnits (namedRows store) k,
          0 < u.2.minPrice) →
        ∃ res n, firstLoop store (namedRows store) keys = (some res, n) := by
      intro keys
      induction keys with
      | nil => exact fun _ => ⟨[], 0, rfl⟩
      | cons k ks ih =>
        intro hp
        obtain ⟨res, n, hres⟩ :=
          ih (fun k2 hk2 => hp k2 (List.mem_cons_of_mem _ hk2))
        have hk : (processKey store (namedRows store) k).isSome = true := by
          obtain ⟨u, hu, hupos⟩ := hp k (List.mem_cons_self _ _)
          unfold processKey
          by_cases he : (allPricesOf (productUnits (namedRows store) k)).isEmpty
          · simp [he]
          · have hc : u.2.minPrice ∈ ((productUnits (namedRows store) k).map
                (fun v => v.2.minPrice)).filter (fun p => 0 < p) :=
              List.mem_filter.mpr
                ⟨List.mem_map.mpr ⟨u, hu, rfl⟩, by simpa using hupos⟩
            rcases hcand : ((productUnits (namedRows store) k).map
                (fun v => v.2.minPrice)).filter (fun p => 0 < p) with _ | ⟨c, cs⟩
            · rw [hcand] at hc
              simp at hc
            · simp [he, hcand]
        rw [Option.isSome_iff_exists] at hk
        obtain ⟨r0, hr0⟩ := hk
        refine ⟨r0 :: res, n + 1, ?_⟩
        simp only [firstLoop]
        rw [hr0, hres]
    obtain ⟨res, n, hres⟩ :=
      hloop ((namedRows store).map key2).dedup hpre
    simp only []
    rw [hres]
    simp

/-- Witness for C9: the zero-price store errors, and a store where every
product group has a positive-minimum unit succeeds (precondition checked by
evaluation). -/
theorem c9_overall_min_partiality_witness :
    (get_top_products storeC9err 5).1 = none ∧
    ((get_top_products storeC9ok 2).1).isSome = true :=
  ⟨c9_overall_min_partiality.1,
   c9_overall_min_partiality.2 storeC9ok 2 (by decide)⟩

end Coop
